import Mathlib

/-!
Shallow embedding of the timezone resolver in src/ical/tzif/timezoneinfo.py.

The resolver depends on the host environment (the zoneinfo module's catalog
and TZPATH, the filesystem, and the optional tzdata package).  These external
collaborators are modelled explicitly as fields of an Env record; the decoder
read_tzif (a separate module, not under scrutiny here) is abstracted as a
function field from raw bytes to an arbitrary result type.
-/

namespace Ical.Tzif

/-- Outcome of opening a bundled package resource for reading, modelling
resources.files(package).joinpath(resource).open("rb"): the package module may
be absent (ModuleNotFoundError), the file may be missing (FileNotFoundError),
or the bytes are returned. -/
inductive FetchResult where
  | moduleNotFound : FetchResult
  | fileNotFound : FetchResult
  | ok : List Nat → FetchResult
deriving DecidableEq

/-- The single exception class TimezoneInfoError raised by the resolver,
carrying only its message string. -/
structure TimezoneInfoError where
  message : String
deriving DecidableEq

/-- The host environment the resolver runs in.  availableTimezones models the
result of zoneinfo.available_timezones; tzpath models zoneinfo.TZPATH;
isFile and fileBytes model os.path.isfile and reading an existing file;
tzdataZones models the lines of the tzdata package's zones file (none when the
tzdata module is not installed, so that opening it raises ModuleNotFoundError);
fetchResource models opening a bundled resource; readTzif abstracts the TZif
decoder applied to fetched bytes. -/
structure Env (α : Type) where
  availableTimezones : List String
  tzpath : List String
  isFile : String → Bool
  fileBytes : String → List Nat
  tzdataZones : Option (List String)
  fetchResource : String → String → FetchResult
  readTzif : List Nat → α

/-- Does the character list start with c. -/
def startsWithChar (c : Char) : List Char → Bool
  | [] => false
  | x :: _ => x == c

/-- Does the character list end with c. -/
def endsWithChar (c : Char) : List Char → Bool
  | [] => false
  | [x] => x == c
  | _ :: x :: xs => endsWithChar c (x :: xs)

/-- POSIX os.path.join of one directory and one component, as used by
_find_tzfile: an absolute second component replaces the first; otherwise the
parts are joined with a slash unless the first is empty or already ends in
one. -/
def os_path_join (a b : String) : String :=
  if startsWithChar '/' b.toList then b
  else if a == "" || endsWithChar '/' a.toList then a ++ b
  else a ++ "/" ++ b

/-- The whitespace characters removed by Python's str.strip (the ASCII ones;
zone names contain none of them). -/
def isPySpace (c : Char) : Bool :=
  c == ' ' || c == '\t' || c == '\n' || c == '\r' || c == '\x0b' || c == '\x0c'

/-- Python's str.strip: remove leading and trailing whitespace. -/
def strip (s : String) : String :=
  String.mk (((s.toList.dropWhile isPySpace).reverse.dropWhile isPySpace).reverse)

/-- Embedding of _read_system_timezones: returns the host catalog from
zoneinfo.available_timezones (the functools.cache decorator is modelled
separately by the Memo development below). -/
def read_system_timezones (env : Env α) : List String :=
  env.availableTimezones

/-- Loop of _find_tzfile over the remaining search path entries: the first
directory containing a file at the joined path wins. -/
def find_tzfile_loop (env : Env α) (key : String) : List String → Option String
  | [] => none
  | searchPath :: rest =>
    let filepath := os_path_join searchPath key
    if env.isFile filepath then some filepath else find_tzfile_loop env key rest

/-- Embedding of _find_tzfile: retrieve the path to a TZif file from a key by
scanning zoneinfo.TZPATH in order. -/
def find_tzfile (env : Env α) (key : String) : Option String :=
  find_tzfile_loop env key env.tzpath

/-- Embedding of _read_tzdata_timezones: the set of keys listed in the tzdata
package's zones file, one per stripped line; ModuleNotFoundError (tzdata not
installed) degrades to the empty catalog. -/
def read_tzdata_timezones (env : Env α) : List String :=
  match env.tzdataZones with
  | some lines => lines.map strip
  | none => []

/-- Split a character list at the LAST occurrence of c, as Python's
rsplit(sep, 1) does: some (before, after) when c occurs, none otherwise. -/
def rsplit1 (c : Char) : List Char → Option (List Char × List Char)
  | [] => none
  | x :: xs =>
    match rsplit1 c xs with
    | some (l, r) => some (x :: l, r)
    | none => if x = c then some ([], xs) else none

/-- Replace every occurrence of character a by b, as Python's str.replace
does for single characters. -/
def replaceChar (a b : Char) (l : List Char) : List Char :=
  l.map fun x => if x = a then b else x

/-- Embedding of _iana_key_to_resource: the package and resource file for the
specified timezone.  A key without a slash lives directly in tzdata.zoneinfo;
otherwise the part after the last slash is the resource and the rest, slashes
turned into dots, extends the package path. -/
def iana_key_to_resource (key : String) : String × String :=
  match rsplit1 '/' key.toList with
  | none => ("tzdata.zoneinfo", key)
  | some (loc, res) =>
      ("tzdata.zoneinfo." ++ String.mk (replaceChar '/' '.' loc), String.mk res)

/-- Embedding of read: validate the key against the host catalog, prefer a
file found on the host search path, fall back to the bundled tzdata package,
and translate every failure into a TimezoneInfoError naming the key. -/
def read (env : Env α) (key : String) : Except TimezoneInfoError α :=
  if key ∉ read_system_timezones env then
    .error ⟨"Unable to find timezone in system timezones: " ++ key⟩
  else
    match find_tzfile env key with
    | some tzfile => .ok (env.readTzif (env.fileBytes tzfile))
    | none =>
      if key ∉ read_tzdata_timezones env then
        .error ⟨"Unable to find timezone: " ++ key⟩
      else
        let pr := iana_key_to_resource key
        match env.fetchResource pr.1 pr.2 with
        | .moduleNotFound => .error ⟨"Unable to load tzdata module: " ++ key⟩
        | .fileNotFound => .error ⟨"Unable to read tzdata file: " ++ key⟩
        | .ok bytes => .ok (env.readTzif bytes)

/-- State of one functools.cache memo cell for a nullary function: the cached
value if any, and how many times the underlying computation has run. -/
structure Memo (β : Type) where
  cached : Option β
  computeCount : Nat

/-- The empty memo cell a process starts with. -/
def memoInit : Memo β := ⟨none, 0⟩

/-- One call through a functools.cache wrapper: return the cached value if
present, otherwise run the computation once and cache its result. -/
def callMemo (compute : Unit → β) (m : Memo β) : β × Memo β :=
  match m.cached with
  | some v => (v, m)
  | none => (compute (), ⟨some (compute ()), m.computeCount + 1⟩)

/-- A sequence of n calls through the memo cell, collecting every returned
value in order. -/
def runCalls (compute : Unit → β) : Nat → Memo β → List β × Memo β
  | 0, m => ([], m)
  | n + 1, m =>
    let step := callMemo compute m
    let rest := runCalls compute n step.2
    (step.1 :: rest.1, rest.2)

/-- Inverse direction of the key-to-resource mapping as the spec describes it:
strip the tzdata.zoneinfo package head (with its following dot), turn the
remaining dots back into slashes, and join with the resource name; when the
package is exactly tzdata.zoneinfo the key is the resource name alone. -/
def reconstructKey (pkg res : String) : String :=
  if pkg = "tzdata.zoneinfo" then res
  else String.mk (replaceChar '.' '/' (pkg.toList.drop 16) ++ '/' :: res.toList)

/-! ### Concrete environments used to exhibit the resolver's behaviors -/

/-- A host with two known timezones, one of which is present as a file under
the single search directory; the tzdata package is installed. -/
def envHostOnly : Env (List Nat) where
  availableTimezones := ["UTC", "America/New_York"]
  tzpath := ["/usr/share/zoneinfo"]
  isFile := fun p => p == "/usr/share/zoneinfo/America/New_York"
  fileBytes := fun _ => [84, 90, 105, 102, 50]
  tzdataZones := some ["UTC", "America/New_York"]
  fetchResource := fun _ _ => FetchResult.moduleNotFound
  readTzif := id

/-- A host that knows the key but has no file for it, with a tzdata zones
list that also lacks it. -/
def envNoFile : Env (List Nat) where
  availableTimezones := ["UTC"]
  tzpath := ["/usr/share/zoneinfo"]
  isFile := fun _ => false
  fileBytes := fun _ => []
  tzdataZones := some ["America/New_York"]
  fetchResource := fun _ _ => FetchResult.moduleNotFound
  readTzif := id

/-- A host with the tzdata package not installed at all. -/
def envNoTzdata : Env (List Nat) where
  availableTimezones := ["UTC", "America/New_York"]
  tzpath := ["/usr/share/zoneinfo"]
  isFile := fun p => p == "/usr/share/zoneinfo/America/New_York"
  fileBytes := fun _ => [84, 90, 105, 102, 50]
  tzdataZones := none
  fetchResource := fun _ _ => FetchResult.moduleNotFound
  readTzif := id

/-- A host whose tzdata zones list contains the key although opening the
tzdata subpackage raises ModuleNotFoundError (inconsistent install). -/
def envModuleGone : Env (List Nat) where
  availableTimezones := ["UTC"]
  tzpath := ["/usr/share/zoneinfo"]
  isFile := fun _ => false
  fileBytes := fun _ => []
  tzdataZones := some ["UTC"]
  fetchResource := fun _ _ => FetchResult.moduleNotFound
  readTzif := id

/-- A host whose tzdata zones list contains the key but whose bundled
resource file is missing (FileNotFoundError on open). -/
def envFileGone : Env (List Nat) where
  availableTimezones := ["UTC"]
  tzpath := ["/usr/share/zoneinfo"]
  isFile := fun _ => false
  fileBytes := fun _ => []
  tzdataZones := some ["UTC"]
  fetchResource := fun _ _ => FetchResult.fileNotFound
  readTzif := id

/-! ### Helper lemmas about the string-splitting primitives -/

theorem rsplit1_eq_none_iff (c : Char) (l : List Char) : rsplit1 c l = none ↔ c ∉ l := by
  induction l with
  | nil => simp [rsplit1]
  | cons x xs ih =>
    simp only [rsplit1]
    cases hx : rsplit1 c xs with
    | some p =>
      rw [hx] at ih
      simp only [reduceCtorEq, false_iff] at ih ⊢
      push_neg at ih
      simp [List.mem_cons, ih]
    | none =>
      rw [hx] at ih
      simp only [true_iff] at ih
      by_cases hc : x = c
      · subst hc
        simp [List.mem_cons]
      · simp [hc, List.mem_cons, ih, Ne.symm hc]

theorem rsplit1_eq_some (c : Char) (l : List Char) :
    ∀ loc res, rsplit1 c l = some (loc, res) → l = loc ++ c :: res ∧ c ∉ res := by
  induction l with
  | nil => intro loc res h; simp [rsplit1] at h
  | cons x xs ih =>
    intro loc res h
    cases hx : rsplit1 c xs with
    | some p =>
      obtain ⟨l1, r1⟩ := p
      simp only [rsplit1, hx, Option.some.injEq, Prod.mk.injEq] at h
      obtain ⟨h1, h2⟩ := h
      obtain ⟨hxs, hr⟩ := ih l1 r1 hx
      subst h2
      constructor
      · rw [← h1, hxs]; rfl
      · exact hr
    | none =>
      simp only [rsplit1, hx] at h
      by_cases hc : x = c
      · rw [if_pos hc] at h
        simp only [Option.some.injEq, Prod.mk.injEq] at h
        obtain ⟨h1, h2⟩ := h
        subst h2
        rw [← h1]
        exact ⟨by simp [hc], (rsplit1_eq_none_iff c xs).mp hx⟩
      · rw [if_neg hc] at h
        exact absurd h (by simp)

theorem rsplit1_append (c : Char) (g r : List Char) (hr : c ∉ r) :
    rsplit1 c (g ++ c :: r) = some (g, r) := by
  induction g with
  | nil =>
    simp only [List.nil_append, rsplit1]
    rw [(rsplit1_eq_none_iff c r).mpr hr]
    simp
  | cons x xs ih =>
    simp only [List.cons_append, rsplit1, List.append_eq, ih]

theorem replaceChar_invol (l : List Char) : '.' ∉ l →
    replaceChar '.' '/' (replaceChar '/' '.' l) = l := by
  induction l with
  | nil => intro _; rfl
  | cons x xs ih =>
    intro h
    have hx : x ≠ '.' := fun he => h (by simp [he])
    have hxs : '.' ∉ xs := fun hm => h (by simp [hm])
    by_cases hs : x = '/'
    · subst hs; simp [replaceChar] at ih ⊢; exact ih hxs
    · simp [replaceChar, hs, hx] at ih ⊢; exact ih hxs

theorem toList_append (s t : String) : (s ++ t).toList = s.toList ++ t.toList := rfl

theorem mk_toList (s : String) : String.mk s.toList = s := rfl

theorem pkg_ne_base (s : String) : ("tzdata.zoneinfo." ++ s) ≠ "tzdata.zoneinfo" := by
  intro h
  have h2 := congrArg String.toList h
  rw [toList_append] at h2
  have h3 := congrArg List.length h2
  rw [List.length_append] at h3
  have h16 : ("tzdata.zoneinfo.".toList).length = 16 := rfl
  have h15 : ("tzdata.zoneinfo".toList).length = 15 := rfl
  omega

theorem append_ne_of_length_ne (s t : String) (h : s.toList.length ≠ t.toList.length)
    (k : String) : s ++ k ≠ t ++ k := by
  intro he
  have h2 := congrArg String.toList he
  rw [toList_append, toList_append] at h2
  have h3 := congrArg List.length h2
  rw [List.length_append, List.length_append] at h3
  omega

/-! ### Helper lemmas about the host search-path scan -/

theorem find_tzfile_loop_first (env : Env α) (key d : String) (post : List String)
    (hd : env.isFile (os_path_join d key) = true) :
    ∀ pre, (∀ d' ∈ pre, env.isFile (os_path_join d' key) = false) →
      find_tzfile_loop env key (pre ++ d :: post) = some (os_path_join d key) := by
  intro pre
  induction pre with
  | nil => intro _; simp [find_tzfile_loop, hd]
  | cons x xs ih =>
    intro hpre
    have hx : env.isFile (os_path_join x key) = false := hpre x (by simp)
    simp only [List.cons_append, find_tzfile_loop, hx]
    simp only [Bool.false_eq_true, if_false]
    exact ih fun d' hd' => hpre d' (by simp [hd'])

theorem find_tzfile_loop_none (env : Env α) (key : String) :
    ∀ dirs, (∀ d ∈ dirs, env.isFile (os_path_join d key) = false) →
      find_tzfile_loop env key dirs = none := by
  intro dirs
  induction dirs with
  | nil => intro _; rfl
  | cons x xs ih =>
    intro hall
    have hx := hall x (by simp)
    simp only [find_tzfile_loop, hx, Bool.false_eq_true, if_false]
    exact ih fun d hd => hall d (by simp [hd])

theorem find_tzfile_eq_loop (env : Env α) (key : String) :
    find_tzfile env key = find_tzfile_loop env key env.tzpath := rfl

/-! ### Characterizations of the four branches of read -/

theorem read_eq_err_not_system (env : Env α) (key : String)
    (h : key ∉ read_system_timezones env) :
    read env key = .error ⟨"Unable to find timezone in system timezones: " ++ key⟩ := by
  simp only [read, if_pos h]

theorem read_eq_ok_of_found (env : Env α) (key p : String)
    (hcat : key ∈ read_system_timezones env) (hf : find_tzfile env key = some p) :
    read env key = .ok (env.readTzif (env.fileBytes p)) := by
  simp only [read, if_neg (not_not_intro hcat), hf]

theorem read_eq_err_bundle_missing (env : Env α) (key : String)
    (hcat : key ∈ read_system_timezones env) (hf : find_tzfile env key = none)
    (hb : key ∉ read_tzdata_timezones env) :
    read env key = .error ⟨"Unable to find timezone: " ++ key⟩ := by
  simp only [read, if_neg (not_not_intro hcat), hf, if_pos hb]

theorem read_eq_fetch (env : Env α) (key : String)
    (hcat : key ∈ read_system_timezones env) (hf : find_tzfile env key = none)
    (hb : key ∈ read_tzdata_timezones env) :
    read env key =
      match env.fetchResource (iana_key_to_resource key).1 (iana_key_to_resource key).2 with
      | .moduleNotFound => .error ⟨"Unable to load tzdata module: " ++ key⟩
      | .fileNotFound => .error ⟨"Unable to read tzdata file: " ++ key⟩
      | .ok bytes => .ok (env.readTzif bytes) := by
  simp only [read, if_neg (not_not_intro hcat), hf, if_neg (not_not_intro hb)]

/-! ### Helper lemmas about the memo model of functools.cache -/

theorem runCalls_cached (compute : Unit → β) (v : β) (c : Nat) :
    ∀ n, runCalls compute n ⟨some v, c⟩ = (List.replicate n v, ⟨some v, c⟩) := by
  intro n
  induction n with
  | zero => rfl
  | succ n ih =>
    simp only [runCalls, callMemo, ih, List.replicate]

theorem runCalls_from_init (compute : Unit → β) (n : Nat) :
    (runCalls compute n memoInit).1 = List.replicate n (compute ()) ∧
    (runCalls compute n memoInit).2.computeCount ≤ 1 := by
  cases n with
  | zero => exact ⟨rfl, Nat.zero_le 1⟩
  | succ n =>
    have h1 : callMemo compute memoInit = (compute (), ⟨some (compute ()), 1⟩) := rfl
    simp only [runCalls, h1, runCalls_cached]
    exact ⟨by simp [List.replicate], Nat.le_refl 1⟩

/-! ### The claims -/

/-- C1: for every key absent from the host catalog, read fails immediately
with the UnknownTimezone error; the statement holds for every environment, so
the outcome is independent of the search directories, the filesystem and the
bundled catalog, none of which is consulted. -/
theorem read_rejects_key_absent_from_host_catalog (env : Env α) (key : String)
    (h : key ∉ env.availableTimezones) :
    read env key = .error ⟨"Unable to find timezone in system timezones: " ++ key⟩ :=
  read_eq_err_not_system env key h

theorem read_rejects_key_absent_from_host_catalog_witness :
    read envHostOnly "Fictional/Place" =
      .error ⟨"Unable to find timezone in system timezones: " ++ "Fictional/Place"⟩ :=
  read_rejects_key_absent_from_host_catalog envHostOnly "Fictional/Place" (by decide)

/-- C2: when the key passes the host-catalog check and some search directory
holds a file at the path joined from the directory and the key, the first
such directory wins: find_tzfile returns that path and read returns the
decoded bytes of that file, for every environment and hence regardless of the
bundled catalog and bundled resources. -/
theorem read_prefers_first_host_file (env : Env α) (key d : String)
    (pre post : List String)
    (hcat : key ∈ env.availableTimezones)
    (hpath : env.tzpath = pre ++ d :: post)
    (hpre : ∀ d' ∈ pre, env.isFile (os_path_join d' key) = false)
    (hd : env.isFile (os_path_join d key) = true) :
    find_tzfile env key = some (os_path_join d key) ∧
    read env key = .ok (env.readTzif (env.fileBytes (os_path_join d key))) := by
  have hfind : find_tzfile env key = some (os_path_join d key) := by
    rw [find_tzfile_eq_loop, hpath]
    exact find_tzfile_loop_first env key d post hd pre hpre
  exact ⟨hfind, read_eq_ok_of_found env key _ hcat hfind⟩

theorem read_prefers_first_host_file_witness :
    find_tzfile envHostOnly "America/New_York" =
      some (os_path_join "/usr/share/zoneinfo" "America/New_York") ∧
    read envHostOnly "America/New_York" =
      .ok (envHostOnly.readTzif
        (envHostOnly.fileBytes (os_path_join "/usr/share/zoneinfo" "America/New_York"))) :=
  read_prefers_first_host_file envHostOnly "America/New_York" "/usr/share/zoneinfo"
    [] [] (by decide) rfl (by simp) (by decide)

/-- C3: a key that is in the host catalog but matches no file in any search
directory and is absent from the bundled catalog fails with the
UnknownTimezone message of the unable-to-find-timezone outcome. -/
theorem read_fails_unknown_when_both_sources_exhausted (env : Env α) (key : String)
    (hcat : key ∈ env.availableTimezones)
    (hnofile : ∀ d ∈ env.tzpath, env.isFile (os_path_join d key) = false)
    (hbundle : key ∉ read_tzdata_timezones env) :
    read env key = .error ⟨"Unable to find timezone: " ++ key⟩ := by
  have hfind : find_tzfile env key = none := by
    rw [find_tzfile_eq_loop]
    exact find_tzfile_loop_none env key env.tzpath hnofile
  exact read_eq_err_bundle_missing env key hcat hfind hbundle

theorem read_fails_unknown_when_both_sources_exhausted_witness :
    read envNoFile "UTC" = .error ⟨"Unable to find timezone: " ++ "UTC"⟩ :=
  read_fails_unknown_when_both_sources_exhausted envNoFile "UTC"
    (by decide) (by decide) (by decide)

/-- C4: for any key that decomposes as a group part, a final slash and a
slash-free resource part, the key-to-resource mapping returns exactly the
resource part as resource name and the group part with slashes turned into
dots, appended to tzdata.zoneinfo, as package; in particular the key
America/Indiana/Indianapolis yields package tzdata.zoneinfo.America.Indiana
and resource Indianapolis. -/
theorem iana_key_to_resource_splits_at_last_slash :
    (∀ g r : List Char, '/' ∉ r →
      iana_key_to_resource (String.mk (g ++ '/' :: r)) =
        ("tzdata.zoneinfo." ++ String.mk (replaceChar '/' '.' g), String.mk r)) ∧
    iana_key_to_resource "America/Indiana/Indianapolis" =
      ("tzdata.zoneinfo.America.Indiana", "Indianapolis") := by
  constructor
  · intro g r hr
    have ht : (String.mk (g ++ '/' :: r)).toList = g ++ '/' :: r := rfl
    simp only [iana_key_to_resource, ht, rsplit1_append '/' g r hr]
  · rfl

theorem iana_key_to_resource_splits_at_last_slash_witness :
    iana_key_to_resource (String.mk (['E', 't', 'c'] ++ '/' :: ['U', 'T', 'C'])) =
      ("tzdata.zoneinfo." ++ String.mk (replaceChar '/' '.' ['E', 't', 'c']),
        String.mk ['U', 'T', 'C']) :=
  iana_key_to_resource_splits_at_last_slash.1 ['E', 't', 'c'] ['U', 'T', 'C'] (by decide)

/-- C5: when the tzdata package is not installed, computing the bundled
catalog does not fail but yields the empty catalog; resolution still succeeds
for any key served by a host file, and the failure surfaces only for a key
that actually needs the bundled data. -/
theorem tzdata_absent_yields_empty_catalog (env : Env α)
    (h : env.tzdataZones = none) :
    read_tzdata_timezones env = [] ∧
    (∀ key p, key ∈ env.availableTimezones → find_tzfile env key = some p →
      read env key = .ok (env.readTzif (env.fileBytes p))) ∧
    (∀ key, key ∈ env.availableTimezones → find_tzfile env key = none →
      read env key = .error ⟨"Unable to find timezone: " ++ key⟩) := by
  have hempty : read_tzdata_timezones env = [] := by
    simp only [read_tzdata_timezones, h]
  refine ⟨hempty, ?_, ?_⟩
  · intro key p hk hf
    exact read_eq_ok_of_found env key p hk hf
  · intro key hk hf
    exact read_eq_err_bundle_missing env key hk hf (by simp [hempty])

theorem tzdata_absent_yields_empty_catalog_witness :
    read_tzdata_timezones envNoTzdata = [] :=
  (tzdata_absent_yields_empty_catalog envNoTzdata rfl).1

/-- C6: when the key is in both catalogs, no host file exists and opening the
bundled package raises ModuleNotFoundError, read fails with the
BundleUnavailable message, which differs from both UnknownTimezone messages
for every key. -/
theorem read_fails_bundle_unavailable_on_missing_module (env : Env α) (key : String)
    (hcat : key ∈ env.availableTimezones)
    (hf : find_tzfile env key = none)
    (hb : key ∈ read_tzdata_timezones env)
    (hfetch : env.fetchResource (iana_key_to_resource key).1 (iana_key_to_resource key).2 =
      FetchResult.moduleNotFound) :
    read env key = .error ⟨"Unable to load tzdata module: " ++ key⟩ ∧
    (∀ k : String,
      "Unable to load tzdata module: " ++ k ≠
        "Unable to find timezone in system timezones: " ++ k ∧
      "Unable to load tzdata module: " ++ k ≠ "Unable to find timezone: " ++ k) := by
  refine ⟨?_, fun k =>
    ⟨append_ne_of_length_ne _ _ (by decide) k, append_ne_of_length_ne _ _ (by decide) k⟩⟩
  rw [read_eq_fetch env key hcat hf hb, hfetch]

theorem read_fails_bundle_unavailable_on_missing_module_witness :
    read envModuleGone "UTC" = .error ⟨"Unable to load tzdata module: " ++ "UTC"⟩ :=
  (read_fails_bundle_unavailable_on_missing_module envModuleGone "UTC"
    (by decide) rfl (by decide) rfl).1

/-- C7: when the key is in both catalogs, no host file exists, the bundled
package opens but the resource file itself is missing, read fails with the
ResourceMissing message, which differs from both UnknownTimezone messages for
every key. -/
theorem read_fails_resource_missing_on_missing_file (env : Env α) (key : String)
    (hcat : key ∈ env.availableTimezones)
    (hf : find_tzfile env key = none)
    (hb : key ∈ read_tzdata_timezones env)
    (hfetch : env.fetchResource (iana_key_to_resource key).1 (iana_key_to_resource key).2 =
      FetchResult.fileNotFound) :
    read env key = .error ⟨"Unable to read tzdata file: " ++ key⟩ ∧
    (∀ k : String,
      "Unable to read tzdata file: " ++ k ≠
        "Unable to find timezone in system timezones: " ++ k ∧
      "Unable to read tzdata file: " ++ k ≠ "Unable to find timezone: " ++ k) := by
  refine ⟨?_, fun k =>
    ⟨append_ne_of_length_ne _ _ (by decide) k, append_ne_of_length_ne _ _ (by decide) k⟩⟩
  rw [read_eq_fetch env key hcat hf hb, hfetch]

theorem read_fails_resource_missing_on_missing_file_witness :
    read envFileGone "UTC" = .error ⟨"Unable to read tzdata file: " ++ "UTC"⟩ :=
  (read_fails_resource_missing_on_missing_file envFileGone "UTC"
    (by decide) rfl (by decide) rfl).1

/-- C8: under the memo model of the functools.cache decorator, a sequence of
n enumeration calls for either catalog runs the underlying computation at
most once, and every call returns exactly the catalog the first call
produced. -/
theorem catalogs_computed_once_and_idempotent (env : Env α) (n : Nat) :
    ((runCalls (fun _ => read_system_timezones env) n memoInit).1 =
        List.replicate n (read_system_timezones env) ∧
      (runCalls (fun _ => read_system_timezones env) n memoInit).2.computeCount ≤ 1) ∧
    ((runCalls (fun _ => read_tzdata_timezones env) n memoInit).1 =
        List.replicate n (read_tzdata_timezones env) ∧
      (runCalls (fun _ => read_tzdata_timezones env) n memoInit).2.computeCount ≤ 1) :=
  ⟨runCalls_from_init _ n, runCalls_from_init _ n⟩

/-- C9: every failing run of read produces a TimezoneInfoError value (the
only error type of the embedding) whose message is one of the four fixed
prefixes followed by the offending key, so the message always names the
key. -/
theorem read_failures_use_single_error_type (env : Env α) (key : String)
    (e : TimezoneInfoError) (h : read env key = .error e) :
    e.message = "Unable to find timezone in system timezones: " ++ key ∨
    e.message = "Unable to find timezone: " ++ key ∨
    e.message = "Unable to load tzdata module: " ++ key ∨
    e.message = "Unable to read tzdata file: " ++ key := by
  simp only [read] at h
  split at h
  · simp only [Except.error.injEq] at h
    subst h
    exact Or.inl rfl
  · split at h
    · exact absurd h (by simp)
    · split at h
      · simp only [Except.error.injEq] at h
        subst h
        exact Or.inr (Or.inl rfl)
      · split at h
        · simp only [Except.error.injEq] at h
          subst h
          exact Or.inr (Or.inr (Or.inl rfl))
        · simp only [Except.error.injEq] at h
          subst h
          exact Or.inr (Or.inr (Or.inr rfl))
        · exact absurd h (by simp)

theorem read_failures_use_single_error_type_witness :
    (⟨"Unable to find timezone in system timezones: Fictional/Place"⟩ :
        TimezoneInfoError).message =
      "Unable to find timezone in system timezones: " ++ "Fictional/Place" ∨
    (⟨"Unable to find timezone in system timezones: Fictional/Place"⟩ :
        TimezoneInfoError).message = "Unable to find timezone: " ++ "Fictional/Place" ∨
    (⟨"Unable to find timezone in system timezones: Fictional/Place"⟩ :
        TimezoneInfoError).message = "Unable to load tzdata module: " ++ "Fictional/Place" ∨
    (⟨"Unable to find timezone in system timezones: Fictional/Place"⟩ :
        TimezoneInfoError).message = "Unable to read tzdata file: " ++ "Fictional/Place" :=
  read_failures_use_single_error_type envNoFile "Fictional/Place"
    ⟨"Unable to find timezone in system timezones: Fictional/Place"⟩ rfl

/-- C10: for every key free of dots, the key-to-resource mapping round-trips:
undoing the package encoding and rejoining with the resource name rebuilds
the key, and a slash-free key maps to the bare tzdata.zoneinfo package with
the whole key as resource name. -/
theorem iana_key_to_resource_roundtrip (key : String) (h : '.' ∉ key.toList) :
    reconstructKey (iana_key_to_resource key).1 (iana_key_to_resource key).2 = key ∧
    ('/' ∉ key.toList →
      (iana_key_to_resource key).1 = "tzdata.zoneinfo" ∧
      (iana_key_to_resource key).2 = key) := by
  cases hsplit : rsplit1 '/' key.toList with
  | none =>
    have he : iana_key_to_resource key = ("tzdata.zoneinfo", key) := by
      simp only [iana_key_to_resource, hsplit]
    rw [he]
    refine ⟨?_, fun _ => ⟨rfl, rfl⟩⟩
    simp [reconstructKey]
  | some p =>
    obtain ⟨loc, res⟩ := p
    obtain ⟨hkey, hres⟩ := rsplit1_eq_some '/' key.toList loc res hsplit
    have hloc : '.' ∉ loc := fun hm => h (by rw [hkey]; exact List.mem_append.mpr (Or.inl hm))
    constructor
    · simp only [iana_key_to_resource, hsplit]
      rw [reconstructKey, if_neg (pkg_ne_base _)]
      have hdrop : ("tzdata.zoneinfo." ++ String.mk (replaceChar '/' '.' loc)).toList.drop 16
          = replaceChar '/' '.' loc := by
        rw [toList_append]
        rw [show (16 : Nat) = ("tzdata.zoneinfo.".toList).length from rfl, List.drop_left]
        rfl
      rw [hdrop, replaceChar_invol loc hloc]
      show String.mk (loc ++ '/' :: res) = key
      rw [← hkey]
      exact mk_toList key
    · intro hslash
      exact absurd (hkey ▸ List.mem_append.mpr (Or.inr (List.mem_cons_self _ _))) hslash

theorem iana_key_to_resource_roundtrip_witness :
    reconstructKey (iana_key_to_resource "America/Indiana/Indianapolis").1
        (iana_key_to_resource "America/Indiana/Indianapolis").2 =
      "America/Indiana/Indianapolis" ∧
    ('/' ∉ "America/Indiana/Indianapolis".toList →
      (iana_key_to_resource "America/Indiana/Indianapolis").1 = "tzdata.zoneinfo" ∧
      (iana_key_to_resource "America/Indiana/Indianapolis").2 =
        "America/Indiana/Indianapolis") :=
  iana_key_to_resource_roundtrip "America/Indiana/Indianapolis" (by decide)

end Ical.Tzif
